import Mathlib

/-!
Shallow embedding of `scripts/find_camel_case.py`: the camelCase scanner,
its todo-list session store, the durable JSON record, and the interactive
navigation operations.  Text is modelled as `List Char`; the Python regular
expressions are translated into an explicit backtracking matcher whose
alternatives are tried in Python's preference order (leftmost match,
greedy quantifiers with backtracking).
-/

namespace FindCamelCase

abbrev Chars := List Char

/-- ASCII whitespace recognised by Python's `str.strip` and `\s`. -/
def pySpace (c : Char) : Bool :=
  c == ' ' || c == '\t' || c == '\n' || c == '\r' || c == '\x0b' || c == '\x0c'

/-- Python `str.strip()`: drop whitespace from both ends. -/
def pyStrip (s : Chars) : Chars :=
  ((s.dropWhile pySpace).reverse.dropWhile pySpace).reverse

/-- First index at which `needle` occurs in the remaining text, if any
(Python `str.find`, non-negative case). -/
def findSubAux (needle : Chars) : Chars → Nat → Option Nat
  | [], i => if needle.isEmpty then some i else none
  | c :: rest, i =>
    if needle.isPrefixOf (c :: rest) then some i else findSubAux needle rest (i + 1)

def findSub (needle hay : Chars) : Option Nat :=
  findSubAux needle hay 0

/-- Python `needle in hay` substring test. -/
def containsSub (needle hay : Chars) : Bool :=
  (findSub needle hay).isSome

/-- `find_var_position` from the source: `line.find(var)` clamped to 0 when absent. -/
def find_var_position (var line : Chars) : Nat :=
  (findSub var line).getD 0

/- ### Character classes used by the patterns -/

def isLowerA (c : Char) : Bool := 97 ≤ c.toNat && c.toNat ≤ 122
def isUpperA (c : Char) : Bool := 65 ≤ c.toNat && c.toNat ≤ 90
def isDigitA (c : Char) : Bool := 48 ≤ c.toNat && c.toNat ≤ 57

/-- `[a-zA-Z0-9_]`, the ASCII reading of `\w`. -/
def isWordChar (c : Char) : Bool :=
  isLowerA c || isUpperA c || isDigitA c || c == '_'

/-- `[a-zA-Z0-9_:]` (the type-name class in `VAR_PATTERN`). -/
def isIdColon (c : Char) : Bool := isWordChar c || c == ':'

/-- `[a-z0-9_]`. -/
def isLowerDigU (c : Char) : Bool := isLowerA c || isDigitA c || c == '_'

def notGt (c : Char) : Bool := c != '>'
def notRParen (c : Char) : Bool := c != ')'
def notRBrace (c : Char) : Bool := c != '}'
/-- `.` outside DOTALL mode: any character but newline. -/
def notNl (c : Char) : Bool := c != '\n'

/- ### A small backtracking regex matcher

Only the constructs appearing in the source's patterns are modelled:
character classes, literals, `^`, `\b`, greedy `*`/`+` over a class,
`(?:...)?`, alternation, sequencing and capture groups.  `mrun` returns
all match continuations in Python's preference order, so the head of the
list is the match Python's engine would pick. -/

inductive Re where
  | cls : (Char → Bool) → Re
  | lit : Chars → Re
  | bol : Re
  | bnd : Re
  | starC : (Char → Bool) → Re
  | plusC : (Char → Bool) → Re
  | opt : Re → Re
  | alt : Re → Re → Re
  | seq : Re → Re → Re
  | grp : Nat → Re → Re

/-- Captured group spans: (group index, start, stop). -/
abbrev Caps := List (Nat × Nat × Nat)

def wordAt (s : Chars) (j : Nat) : Bool :=
  match (s.drop j).head? with
  | some c => isWordChar c
  | none => false

/-- `\b`: the word-character status changes between positions `i-1` and `i`. -/
def boundaryAt (s : Chars) (i : Nat) : Bool :=
  (if i = 0 then false else wordAt s (i - 1)) != wordAt s i

/-- Length of the maximal run of class `p` starting at `i`. -/
def runLen (p : Char → Bool) (s : Chars) (i : Nat) : Nat :=
  ((s.drop i).takeWhile p).length

def mrun (s : Chars) : Re → Nat → Caps → List (Nat × Caps)
  | .cls p, i, caps =>
    match (s.drop i).head? with
    | some c => if p c then [(i + 1, caps)] else []
    | none => []
  | .lit t, i, caps =>
    if t.isPrefixOf (s.drop i) then [(i + t.length, caps)] else []
  | .bol, i, caps => if i = 0 then [(i, caps)] else []
  | .bnd, i, caps => if boundaryAt s i then [(i, caps)] else []
  | .starC p, i, caps =>
    let k := runLen p s i
    (List.range (k + 1)).map (fun j => (i + k - j, caps))
  | .plusC p, i, caps =>
    let k := runLen p s i
    (List.range k).map (fun j => (i + k - j, caps))
  | .opt r, i, caps => mrun s r i caps ++ [(i, caps)]
  | .alt a b, i, caps => mrun s a i caps ++ mrun s b i caps
  | .seq a b, i, caps => (mrun s a i caps).flatMap (fun pc => mrun s b pc.1 pc.2)
  | .grp n r, i, caps => (mrun s r i caps).map (fun pc => (pc.1, (n, i, pc.1) :: pc.2))

/-- The match Python's engine picks when anchoring the pattern at `i`. -/
def matchFirst (re : Re) (s : Chars) (i : Nat) : Option (Nat × Caps) :=
  (mrun s re i []).head?

/-- `re.finditer`: scan left to right, emit non-overlapping matches
(start, stop, captures), resume after each match. -/
def finditerAux (re : Re) (s : Chars) : Nat → Nat → List (Nat × Nat × Caps)
  | 0, _ => []
  | fuel + 1, i =>
    if i > s.length then []
    else
      match matchFirst re s i with
      | some (e, caps) =>
        (i, e, caps) :: finditerAux re s fuel (if i < e then e else i + 1)
      | none => finditerAux re s fuel (i + 1)

def finditer (re : Re) (s : Chars) : List (Nat × Nat × Caps) :=
  finditerAux re s (s.length + 1) 0

/-- `re.search`: does the pattern match anywhere? -/
def reSearch (re : Re) (s : Chars) : Bool :=
  (List.range (s.length + 1)).any (fun i => !(mrun s re i []).isEmpty)

/-- Text of capture group `n`. -/
def capStr (s : Chars) (caps : Caps) (n : Nat) : Chars :=
  match caps.find? (fun t => t.1 == n) with
  | some (_, a, b) => (s.drop a).take (b - a)
  | none => []

/- ### The source's patterns -/

/-- `[a-z][a-z0-9_]*[A-Z][a-zA-Z0-9_]*`: the camelCase token shape. -/
def camelRe : Re :=
  .seq (.cls isLowerA) (.seq (.starC isLowerDigU) (.seq (.cls isUpperA) (.starC isWordChar)))

/-- `VAR_PATTERN`:
`(^|\s+)([a-zA-Z0-9_:]+(?:<[^>]+>)?(?:::)?[a-zA-Z0-9_:]+)\s+([a-z][a-z0-9_]*[A-Z][a-zA-Z0-9_]*)\s*[;=({]`. -/
def VAR_PATTERN : Re :=
  .seq (.grp 1 (.alt .bol (.plusC pySpace)))
    (.seq (.grp 2 (.seq (.plusC isIdColon)
        (.seq (.opt (.seq (.lit ['<']) (.seq (.plusC notGt) (.lit ['>']))))
          (.seq (.opt (.lit [':', ':'])) (.plusC isIdColon)))))
      (.seq (.plusC pySpace)
        (.seq (.grp 3 camelRe)
          (.seq (.starC pySpace) (.cls (fun c => c == ';' || c == '=' || c == '(' || c == '{'))))))

/-- `THIS_PATTERN`: `this->([a-z][a-z0-9_]*[A-Z][a-zA-Z0-9_]*)`. -/
def THIS_PATTERN : Re :=
  .seq (.lit "this->".toList) (.grp 1 camelRe)

/-- `CLASS_METHOD_VAR_PATTERN`:
`([a-zA-Z0-9_]+)::([a-zA-Z0-9_]+)\s*\([^)]*\)\s*\{[^}]*\b([a-z][a-z0-9_]*[A-Z][a-zA-Z0-9_]*)\b`. -/
def CLASS_METHOD_VAR_PATTERN : Re :=
  .seq (.grp 1 (.plusC isWordChar)) (.seq (.lit [':', ':']) (.seq (.grp 2 (.plusC isWordChar))
    (.seq (.starC pySpace) (.seq (.lit ['(']) (.seq (.starC notRParen) (.seq (.lit [')'])
      (.seq (.starC pySpace) (.seq (.lit ['{']) (.seq (.starC notRBrace)
        (.seq .bnd (.seq (.grp 3 camelRe) .bnd)))))))))))

/-- `\bword\b` deny-list entries of `FALSE_POSITIVE_PATTERNS`. -/
def kwRe (w : String) : Re := .seq .bnd (.seq (.lit w.toList) .bnd)

def FALSE_POSITIVE_PATTERNS : List Re :=
  [kwRe "return", kwRe "throw", kwRe "if", kwRe "else", kwRe "for", kwRe "while",
   kwRe "namespace", kwRe "typedef", kwRe "template", .lit "#include".toList,
   kwRe "catch", kwRe "class", kwRe "using", kwRe "enum", kwRe "struct"]

def is_false_positive (line : Chars) : Bool :=
  FALSE_POSITIVE_PATTERNS.any (fun p => reSearch p line)

/-- `is_template_parameter`: `template\s*<.*\bVAR\b.*>` searched in the line. -/
def is_template_parameter (varName line : Chars) : Bool :=
  reSearch (.seq (.lit "template".toList) (.seq (.starC pySpace) (.seq (.lit ['<'])
    (.seq (.starC notNl) (.seq .bnd (.seq (.lit varName)
      (.seq .bnd (.seq (.starC notNl) (.lit ['>'])))))))) ) line

def CONTAINER_TYPES : List Chars :=
  ["vector", "map", "unordered_map", "set", "unordered_set", "list", "deque",
   "queue", "stack", "array", "tuple", "pair", "optional", "variant"].map String.toList

def STD_TYPEDEFS : List Chars :=
  ["string", "wstring", "u8string", "u16string", "u32string", "stringstream",
   "istringstream", "ostringstream", "wstringstream", "iostream", "istream",
   "ostream", "ifstream", "ofstream", "size_t", "ptrdiff_t", "int8_t", "int16_t",
   "int32_t", "int64_t", "uint8_t", "uint16_t", "uint32_t", "uint64_t",
   "uintptr_t", "intptr_t"].map String.toList

/- ### `process_file` -/

/-- One element of the result tuples `(line_num, line_text, var_name, col_position)`
appended by `process_file`. -/
structure Finding where
  line_num : Nat
  line_text : Chars
  var_name : Chars
  column : Nat
deriving Repr, DecidableEq

/-- The `VAR_PATTERN` loop body of `process_file` for line index `i`. -/
def varFindings (lines : List Chars) (i : Nat) : List Finding :=
  let line := lines.getD i []
  (finditer VAR_PATTERN line).filterMap (fun m =>
    let var_type := capStr line m.2.2 2
    let var_name := capStr line m.2.2 3
    if STD_TYPEDEFS.contains var_name
        || CONTAINER_TYPES.any (fun c => containsSub c var_type) then none
    else if is_template_parameter var_name line then none
    else some ⟨i + 1, pyStrip line, var_name, find_var_position var_name line⟩)

/-- The `THIS_PATTERN` loop body of `process_file` for line index `i`. -/
def thisFindings (lines : List Chars) (i : Nat) : List Finding :=
  let line := lines.getD i []
  (finditer THIS_PATTERN line).map (fun m =>
    let var_name := capStr line m.2.2 1
    ⟨i + 1, pyStrip line, var_name, find_var_position var_name line⟩)

/-- `"\n".join(lines[max(0, i-10):min(len(lines), i+10)])`. -/
def methodWindow (lines : List Chars) (i : Nat) : Chars :=
  List.intercalate ['\n'] ((lines.drop (i - 10)).take (min lines.length (i + 10) - (i - 10)))

/-- The `CLASS_METHOD_VAR_PATTERN` loop body of `process_file` for line index `i`,
including the `i - 10 <= match.start() <= i + 10` filter (Python integer
comparison, hence the cast to `Int`). -/
def methodFindings (lines : List Chars) (i : Nat) : List Finding :=
  let line := lines.getD i []
  let window := methodWindow lines i
  (finditer CLASS_METHOD_VAR_PATTERN window).filterMap (fun m =>
    let class_name := capStr window m.2.2 1
    let method_name := capStr window m.2.2 2
    let var_name := capStr window m.2.2 3
    if (i : Int) - 10 ≤ (m.1 : Int) ∧ (m.1 : Int) ≤ (i : Int) + 10 then
      some ⟨i + 1,
        "In ".toList ++ class_name ++ [':', ':'] ++ method_name ++ ": ".toList ++ pyStrip line,
        var_name, find_var_position var_name line⟩
    else none)

/-- The body of `process_file`'s per-line loop: skip preprocessor lines and
deny-listed lines, otherwise run the three pattern loops in source order. -/
def processLine (lines : List Chars) (i : Nat) : List Finding :=
  let line := lines.getD i []
  if ['#'].isPrefixOf (pyStrip line) || is_false_positive line then []
  else varFindings lines i ++ thisFindings lines i ++ methodFindings lines i

/-- `process_file`, as a function of the `lines = f.readlines()` list
(each element one line of the file, trailing newline included). -/
def process_file (lines : List Chars) : List Finding :=
  (List.range lines.length).flatMap (processLine lines)

/- ### The todo list and the session store -/

/-- One dict of `TODO_LIST`, with the keys in their insertion order. -/
structure TodoItem where
  file_path : Chars
  line_num : Nat
  column : Nat
  row_0_based : Nat
  col_0_based : Nat
  var_name : Chars
  line_text : Chars
deriving Repr, DecidableEq

/-- The in-memory globals `TODO_LIST` and `CURRENT_INDEX`. -/
structure SessionState where
  todo_list : List TodoItem
  current_index : Nat
deriving Repr, DecidableEq

/-- Python string comparison: lexicographic by code point. -/
def charsLe : Chars → Chars → Bool
  | [], _ => true
  | _ :: _, [] => false
  | a :: as, b :: bs =>
    if a.toNat < b.toNat then true
    else if b.toNat < a.toNat then false
    else charsLe as bs

/-- The key order of `sorted(results.items())`. -/
def resLe (a b : Chars × List Finding) : Prop := charsLe a.1 b.1 = true

instance : DecidableRel resLe := fun a b => by unfold resLe; infer_instance

/-- `build_todo_list`: flatten the per-file results, iterating files in
sorted key order, appending one dict per finding. -/
def build_todo_list (results : List (Chars × List Finding)) : List TodoItem :=
  (List.insertionSort resLe results).flatMap (fun pr =>
    if pr.2.isEmpty then []
    else pr.2.map (fun f =>
      ⟨pr.1, f.line_num, f.column, f.line_num - 1, f.column, f.var_name, f.line_text⟩))

/- ### The durable record: the exact text `json.dump` writes -/

def digitChar (n : Nat) : Char := Char.ofNat (48 + n)

/-- Decimal digits of `n`, most significant first; the fuel argument makes
the recursion structural (any fuel ≥ n suffices). -/
def natDigitsAux : Nat → Nat → Chars
  | 0, n => [digitChar (n % 10)]
  | fuel + 1, n =>
    if n < 10 then [digitChar n]
    else natDigitsAux fuel (n / 10) ++ [digitChar (n % 10)]

def renderNat (n : Nat) : Chars := natDigitsAux n n

def hexDigitChar (n : Nat) : Char :=
  if n < 10 then Char.ofNat (48 + n) else Char.ofNat (87 + n)

/-- JSON string escaping as `json.dump` performs it on the characters the
program stores (`\"`, `\\`, short escapes for the common control
characters, `\u00XX` for the rest). -/
def escChar (c : Char) : Chars :=
  if c = '"' then ['\\', '"']
  else if c = '\\' then ['\\', '\\']
  else if c = '\n' then ['\\', 'n']
  else if c = '\t' then ['\\', 't']
  else if c = '\r' then ['\\', 'r']
  else if c = '\x08' then ['\\', 'b']
  else if c = '\x0c' then ['\\', 'f']
  else if c.toNat < 32 then
    ['\\', 'u', '0', '0', hexDigitChar (c.toNat / 16), hexDigitChar (c.toNat % 16)]
  else [c]

def renderString (s : Chars) : Chars :=
  '"' :: (s.flatMap escChar ++ ['"'])

/-- The serialization of one `TODO_LIST` dict (default `json.dump`
separators `", "` and `": "`, keys in insertion order). -/
def renderItem (it : TodoItem) : Chars :=
  "\x7b\"file_path\": ".toList ++ renderString it.file_path
  ++ ", \"line_num\": ".toList ++ renderNat it.line_num
  ++ ", \"column\": ".toList ++ renderNat it.column
  ++ ", \"row_0_based\": ".toList ++ renderNat it.row_0_based
  ++ ", \"col_0_based\": ".toList ++ renderNat it.col_0_based
  ++ ", \"var_name\": ".toList ++ renderString it.var_name
  ++ ", \"line_text\": ".toList ++ renderString it.line_text ++ ['}']

def renderItemsTail : List TodoItem → Chars
  | [] => []
  | it :: more => ", ".toList ++ renderItem it ++ renderItemsTail more

def renderItems : List TodoItem → Chars
  | [] => []
  | it :: more => renderItem it ++ renderItemsTail more

/-- `json.dump({"current_index": CURRENT_INDEX, "items": TODO_LIST}, f)`:
the full durable record text. -/
def renderRecord (items : List TodoItem) (cursor : Nat) : Chars :=
  "\x7b\"current_index\": ".toList ++ renderNat cursor
  ++ ", \"items\": [".toList ++ renderItems items ++ "]\x7d".toList

/-- `save_todo_list`: the record text written for the current session. -/
def save_todo_list (st : SessionState) : Chars :=
  renderRecord st.todo_list st.current_index

/-- The sequence of durable-record states an in-place `open(f, "w")` +
write passes through: the previous record, then every prefix of the new
text (truncation first, the complete record last).  A crash can stop the
sequence at any point; there is no temporary file and no rename. -/
def saveTrace (old : Option Chars) (st : SessionState) : List (Option Chars) :=
  (old :: (List.range (save_todo_list st).length).map
    (fun k => some ((save_todo_list st).take k))) ++ [some (save_todo_list st)]

/- ### Parsing the durable record back -/

def expectLit (t s : Chars) : Option Chars :=
  if t.isPrefixOf s then some (s.drop t.length) else none

def hexVal (c : Char) : Option Nat :=
  if 48 ≤ c.toNat && c.toNat ≤ 57 then some (c.toNat - 48)
  else if 97 ≤ c.toNat && c.toNat ≤ 102 then some (c.toNat - 87)
  else none

/-- The single-character escapes `json.load` understands (besides `\uXXXX`;
`\/` is never emitted by the program and is not modelled). -/
def unescChar (e : Char) : Option Char :=
  if e = '"' then some '"'
  else if e = '\\' then some '\\'
  else if e = 'n' then some '\n'
  else if e = 't' then some '\t'
  else if e = 'r' then some '\r'
  else if e = 'b' then some '\x08'
  else if e = 'f' then some '\x0c'
  else none

/-- Body of a JSON string after the opening quote: unescape until the
closing quote, returning the content and the rest of the input. -/
def parseStringBody : Chars → Option (Chars × Chars)
  | [] => none
  | c :: rest =>
    if c = '"' then some ([], rest)
    else if c = '\\' then
      match rest with
      | [] => none
      | e :: rest2 =>
        if e = 'u' then
          match rest2 with
          | a :: b :: c3 :: d :: rest3 =>
            match hexVal a, hexVal b, hexVal c3, hexVal d with
            | some va, some vb, some vc, some vd =>
              (parseStringBody rest3).map (fun p =>
                (Char.ofNat (((va * 16 + vb) * 16 + vc) * 16 + vd) :: p.1, p.2))
            | _, _, _, _ => none
          | _ => none
        else
          match unescChar e with
          | some c2 => (parseStringBody rest2).map (fun p => (c2 :: p.1, p.2))
          | none => none
    else (parseStringBody rest).map (fun p => (c :: p.1, p.2))

def parseStr (s : Chars) : Option (Chars × Chars) :=
  match s with
  | [] => none
  | c :: rest => if c = '"' then parseStringBody rest else none

def parseNat (s : Chars) : Option (Nat × Chars) :=
  let digs := s.takeWhile isDigitA
  if digs.isEmpty then none
  else some (digs.foldl (fun acc c => 10 * acc + (c.toNat - 48)) 0, s.dropWhile isDigitA)

/-- Fields `file_path`, `line_num`, `column` of an item dict. -/
def parseItemA (s : Chars) : Option ((Chars × Nat × Nat) × Chars) :=
  (expectLit "\x7b\"file_path\": ".toList s).bind fun s1 =>
  (parseStr s1).bind fun fp =>
  (expectLit ", \"line_num\": ".toList fp.2).bind fun s2 =>
  (parseNat s2).bind fun ln =>
  (expectLit ", \"column\": ".toList ln.2).bind fun s3 =>
  (parseNat s3).bind fun col =>
  some ((fp.1, ln.1, col.1), col.2)

/-- Fields `row_0_based` and `col_0_based`. -/
def parseItemB (s : Chars) : Option ((Nat × Nat) × Chars) :=
  (expectLit ", \"row_0_based\": ".toList s).bind fun s4 =>
  (parseNat s4).bind fun r0 =>
  (expectLit ", \"col_0_based\": ".toList r0.2).bind fun s5 =>
  (parseNat s5).bind fun c0 =>
  some ((r0.1, c0.1), c0.2)

/-- Fields `var_name`, `line_text` and the closing brace. -/
def parseItemC (s : Chars) : Option ((Chars × Chars) × Chars) :=
  (expectLit ", \"var_name\": ".toList s).bind fun s6 =>
  (parseStr s6).bind fun vn =>
  (expectLit ", \"line_text\": ".toList vn.2).bind fun s7 =>
  (parseStr s7).bind fun ltext =>
  (expectLit ['}'] ltext.2).bind fun s8 =>
  some ((vn.1, ltext.1), s8)

/-- One item dict, in the exact shape the program writes. -/
def parseItem (s : Chars) : Option (TodoItem × Chars) :=
  (parseItemA s).bind fun a =>
  (parseItemB a.2).bind fun b =>
  (parseItemC b.2).bind fun c =>
  some (⟨a.1.1, a.1.2.1, a.1.2.2, b.1.1, b.1.2, c.1.1, c.1.2⟩, c.2)

/-- The items after the first one: `", "`-separated dicts until `]`.  The
fuel argument only makes the recursion structural; the caller passes the
input length, which the item grammar can never exhaust. -/
def parseItemsTail : Nat → Chars → Option (List TodoItem × Chars)
  | 0, s => if s.head? = some ']' then some ([], s.tail) else none
  | fuel + 1, s =>
    if s.head? = some ']' then some ([], s.tail)
    else if s.head? = some ',' ∧ s.tail.head? = some ' ' then
      (parseItem s.tail.tail).bind fun its =>
      (parseItemsTail fuel its.2).map (fun p => (its.1 :: p.1, p.2))
    else none

def parseItems (fuel : Nat) (s : Chars) : Option (List TodoItem × Chars) :=
  if s.head? = some ']' then some ([], s.tail)
  else
    (parseItem s).bind fun its =>
    (parseItemsTail fuel its.2).map (fun p => (its.1 :: p.1, p.2))

/-- `json.load` restricted to the record grammar the program itself writes,
followed by the dict accesses the program performs on the result.  A
`none` models `json.JSONDecodeError` (or the later attribute/type errors),
all of which the source catches in `load_todo_list`'s `except` clause. -/
def parseRecord (s : Chars) : Option (Nat × List TodoItem) :=
  (expectLit "\x7b\"current_index\": ".toList s).bind fun s1 =>
  (parseNat s1).bind fun cur =>
  (expectLit ", \"items\": [".toList cur.2).bind fun s2 =>
  (parseItems s2.length s2).bind fun items =>
  (expectLit ['}'] items.2).bind fun s3 =>
  if s3.isEmpty then some (cur.1, items.1) else none

inductive LoadErr where
  | notFound
  | corruptRecord
deriving Repr, DecidableEq

instance {ε α : Type} [DecidableEq ε] [DecidableEq α] : DecidableEq (Except ε α) := fun
  | .ok a, .ok b => decidable_of_iff (a = b) (by simp)
  | .ok _, .error _ => isFalse (by simp)
  | .error _, .ok _ => isFalse (by simp)
  | .error e, .error f => decidable_of_iff (e = f) (by simp)

/-- `load_todo_list` over the durable store (`none` = the record file does
not exist).  The source returns `False` for both failures — printing an
error message only in the corrupt case — and leaves the globals alone;
the two constructors record which branch ran.  The stored cursor is
accepted as-is, without validation against the item count. -/
def load_todo_list (store : Option Chars) : Except LoadErr SessionState :=
  store.elim (.error .notFound) fun s =>
    (parseRecord s).elim (.error .corruptRecord) fun ci => .ok ⟨ci.2, ci.1⟩

/- ### Navigation operations and their observable side effects -/

inductive Action where
  | persist : Chars → Action
  | shown : Action
  | launchEditor : Action
  | reportLaunchFailure : Action
  | reportEmpty : Action
  | reportOutOfRange : Action
  | reportRemoved : Action
  | reportNowEmpty : Action
  | reportReloadFailed : Action
deriving Repr, DecidableEq

/-- `display_current_item`: on a non-empty list an out-of-range cursor is
reset to 0 before the item is printed; an empty list only reports empty. -/
def display_current_item (st : SessionState) : SessionState × List Action :=
  if st.todo_list.isEmpty then (st, [.reportEmpty])
  else if st.current_index ≥ st.todo_list.length then
    ({ st with current_index := 0 }, [.shown])
  else (st, [.shown])

/-- `open_in_editor`: fire-and-forget `subprocess.Popen`; a raised launch
error is caught, reported, and turned into a `False` return value.  The
parameter is the launch outcome of the external process start. -/
def open_in_editor (launchOk : Bool) : List Action :=
  if launchOk then [.launchEditor] else [.launchEditor, .reportLaunchFailure]

/-- `next_item`: advance the cursor circularly, save, display, then launch
the editor. -/
def next_item (st : SessionState) (launchOk : Bool) : SessionState × List Action :=
  if st.todo_list.isEmpty then (st, [.reportEmpty])
  else
    let st' : SessionState := ⟨st.todo_list, (st.current_index + 1) % st.todo_list.length⟩
    let d := display_current_item st'
    (d.1, [.persist (save_todo_list st')] ++ d.2 ++ open_in_editor launchOk)

/-- Python `(c - 1) % len`: the remainder is non-negative. -/
def prevIndex (c len : Nat) : Nat := (((c : Int) - 1) % (len : Int)).toNat

/-- `prev_item`: recede circularly, save, display, launch. -/
def prev_item (st : SessionState) (launchOk : Bool) : SessionState × List Action :=
  if st.todo_list.isEmpty then (st, [.reportEmpty])
  else
    let st' : SessionState := ⟨st.todo_list, prevIndex st.current_index st.todo_list.length⟩
    let d := display_current_item st'
    (d.1, [.persist (save_todo_list st')] ++ d.2 ++ open_in_editor launchOk)

/-- The `g <num>` command with the already 0-based index: set the cursor if
in range (then save, display, launch), otherwise report out of range. -/
def goto_item (st : SessionState) (index : Nat) (launchOk : Bool) :
    SessionState × List Action :=
  if index < st.todo_list.length then
    let st' : SessionState := ⟨st.todo_list, index⟩
    let d := display_current_item st'
    (d.1, [.persist (save_todo_list st')] ++ d.2 ++ open_in_editor launchOk)
  else (st, [.reportOutOfRange])

/-- The cursor adjustment of the `d` command:
`if CURRENT_INDEX >= len(TODO_LIST): CURRENT_INDEX = max(0, len(TODO_LIST) - 1)`
(the `max` is the truncated `Nat` subtraction here), else
`elif CURRENT_INDEX > index: CURRENT_INDEX -= 1`. -/
def deleteCursor (c index len' : Nat) : Nat :=
  if c ≥ len' then len' - 1 else if c > index then c - 1 else c

/-- The `d <num>` command with the already 0-based index: pop the entry,
adjust the cursor exactly as the source does, save, then display (or
report the list empty). -/
def delete_item (st : SessionState) (index : Nat) : SessionState × List Action :=
  if index < st.todo_list.length then
    let l' := st.todo_list.eraseIdx index
    let st' : SessionState := ⟨l', deleteCursor st.current_index index l'.length⟩
    let tail := if l'.isEmpty then (st', [Action.reportNowEmpty])
                else display_current_item st'
    (tail.1, [.reportRemoved, .persist (save_todo_list st')] ++ tail.2)
  else (st, [.reportOutOfRange])

/-- The `r` command: replace the live session by a freshly loaded record
and display it; on any load failure the live session is untouched. -/
def reload_op (st : SessionState) (store : Option Chars) : SessionState × List Action :=
  match load_todo_list store with
  | .ok st' => display_current_item st'
  | .error _ => (st, [.reportReloadFailed])

/-- Module-load values of the globals: empty list, cursor 0, no record
written yet. -/
def initialSession : SessionState := ⟨[], 0⟩

/-- A fresh scan: `build_todo_list` rebuilds `TODO_LIST`, leaves
`CURRENT_INDEX` as it was (0 at program start), and saves immediately. -/
def buildOp (st : SessionState) (results : List (Chars × List Finding)) :
    SessionState × Chars :=
  let st' : SessionState := ⟨build_todo_list results, st.current_index⟩
  (st', save_todo_list st')

/-- `find_camel_case_variables`, restricted to the per-file mapping it
produces: each file's `process_file` findings keyed by path, keeping only
files with findings (`if results:`).  Directory traversal, the extension
filter, the denylist pruning and the process pool are not modelled: the
`files` argument stands for the (path, readlines) pairs the walk visits,
and the dict is the association list. -/
def find_camel_case_variables (files : List (Chars × List Chars)) :
    List (Chars × List Finding) :=
  (files.map (fun f => (f.1, process_file f.2))).filter (fun pr => !pr.2.isEmpty)

/-- The ordering invariant of §8 of the spec, one entry pair at a time:
strictly earlier path, or same path and non-decreasing line number. -/
def entryLe (a b : TodoItem) : Prop :=
  (charsLe a.file_path b.file_path = true ∧ a.file_path ≠ b.file_path) ∨
  (a.file_path = b.file_path ∧ a.line_num ≤ b.line_num)

/-- The session `next_item` leaves behind (the launch outcome is irrelevant
to the state, so it is fixed to `true` here). -/
def nextState (st : SessionState) : SessionState := (next_item st true).1

/- ### Concrete inputs used by the counterexamples and witnesses -/

/-- One source line holding a `this->` use *after* a declaration, so the
two per-line patterns report columns out of order. -/
def demoLineCols : Chars := "x = this->zAb; Foo barBaz;\n".toList

/-- A `//` comment line that still matches `VAR_PATTERN`. -/
def demoLineComment : Chars := "// int fooBar = 3;\n".toList

/-- A preprocessor line (skipped by `process_file`). -/
def demoLineHash : Chars := "#define fooBar 1\n".toList

/-- A three-line file with one method body and one camelCase local. -/
def demoMethodLines : List Chars :=
  ["A::f(x) \x7b\n", "  int fooBar = 1;\n", "\x7d\n"].map String.toList

/-- A small worklist entry. -/
def demoItem : TodoItem := ⟨"a.cpp".toList, 1, 0, 0, 0, "aB".toList, "x aB;".toList⟩

def demoItemB : TodoItem := ⟨"a.cpp".toList, 2, 1, 1, 1, "cD".toList, "y cD;".toList⟩

def demoItemC : TodoItem := ⟨"b.cpp".toList, 3, 2, 2, 2, "eF".toList, "z eF;".toList⟩

def demoList3 : List TodoItem := [demoItem, demoItemB, demoItemC]

/-- A two-file scan input with keys out of order. -/
def demoFiles : List (Chars × List Chars) :=
  [("b.cpp".toList, [demoLineCols]), ("a.cpp".toList, ["  int fooBar = 1;\n".toList])]

/-- A durable record cut off mid-write. -/
def truncatedRecord : Chars := (renderRecord [] 0).take 10

/-! ### Lemmas: navigation -/

theorem display_noop (st : SessionState) (h : st.current_index < st.todo_list.length) :
    display_current_item st = (st, [.shown]) := by
  have hne : st.todo_list.isEmpty = false := by
    rcases hl : st.todo_list with _ | ⟨a, l⟩
    · rw [hl] at h; simp at h
    · rfl
  simp [display_current_item, hne, Nat.not_le.mpr h]

theorem next_item_eq (st : SessionState) (ok : Bool) (h : st.todo_list ≠ []) :
    next_item st ok =
      (⟨st.todo_list, (st.current_index + 1) % st.todo_list.length⟩,
       [.persist (save_todo_list
            ⟨st.todo_list, (st.current_index + 1) % st.todo_list.length⟩), .shown]
         ++ open_in_editor ok) := by
  have hlen : 0 < st.todo_list.length := List.length_pos.mpr h
  have hmod : (st.current_index + 1) % st.todo_list.length < st.todo_list.length :=
    Nat.mod_lt _ hlen
  have hne : st.todo_list.isEmpty = false := by simp [List.isEmpty_iff, h]
  have hd := display_noop ⟨st.todo_list, (st.current_index + 1) % st.todo_list.length⟩ hmod
  simp [next_item, hne, hd]

theorem prevIndex_lt (c len : Nat) (h : 0 < len) : prevIndex c len < len := by
  unfold prevIndex
  have h0 : (0 : Int) < (len : Int) := by exact_mod_cast h
  have := Int.emod_lt_of_pos ((c : Int) - 1) h0
  omega

theorem prev_item_eq (st : SessionState) (ok : Bool) (h : st.todo_list ≠ []) :
    prev_item st ok =
      (⟨st.todo_list, prevIndex st.current_index st.todo_list.length⟩,
       [.persist (save_todo_list
            ⟨st.todo_list, prevIndex st.current_index st.todo_list.length⟩), .shown]
         ++ open_in_editor ok) := by
  have hlen : 0 < st.todo_list.length := List.length_pos.mpr h
  have hne : st.todo_list.isEmpty = false := by simp [List.isEmpty_iff, h]
  have hd := display_noop ⟨st.todo_list, prevIndex st.current_index st.todo_list.length⟩
    (prevIndex_lt _ _ hlen)
  simp [prev_item, hne, hd]

theorem goto_item_eq (st : SessionState) (i : Nat) (ok : Bool)
    (h : i < st.todo_list.length) :
    goto_item st i ok =
      (⟨st.todo_list, i⟩,
       [.persist (save_todo_list ⟨st.todo_list, i⟩), .shown] ++ open_in_editor ok) := by
  have hd := display_noop ⟨st.todo_list, i⟩ h
  simp [goto_item, h, hd]

theorem deleteCursor_lt (c index len' : Nat) (h : 0 < len') :
    deleteCursor c index len' < len' := by
  unfold deleteCursor
  split
  · omega
  · split <;> omega

theorem delete_item_eq (st : SessionState) (index : Nat)
    (h : index < st.todo_list.length) :
    delete_item st index =
      (⟨st.todo_list.eraseIdx index,
        deleteCursor st.current_index index (st.todo_list.eraseIdx index).length⟩,
       [.reportRemoved,
        .persist (save_todo_list ⟨st.todo_list.eraseIdx index,
          deleteCursor st.current_index index (st.todo_list.eraseIdx index).length⟩)]
         ++ if (st.todo_list.eraseIdx index).isEmpty then [Action.reportNowEmpty]
            else [Action.shown]) := by
  rcases hemp : (st.todo_list.eraseIdx index).isEmpty with _ | _
  · have hlen : 0 < (st.todo_list.eraseIdx index).length := by
      rcases hl : st.todo_list.eraseIdx index with _ | ⟨a, l⟩
      · rw [hl] at hemp; simp at hemp
      · simp
    have hd := display_noop
      ⟨st.todo_list.eraseIdx index,
        deleteCursor st.current_index index (st.todo_list.eraseIdx index).length⟩
      (deleteCursor_lt _ _ _ hlen)
    simp [delete_item, h, hemp, hd]
  · simp [delete_item, h, hemp]

theorem nextState_iterate (l : List TodoItem) (c k : Nat) (hne : l ≠ [])
    (h : c < l.length) :
    nextState^[k] ⟨l, c⟩ = ⟨l, (c + k) % l.length⟩ := by
  induction k with
  | zero => simp [Nat.mod_eq_of_lt h]
  | succ k ih =>
    rw [Function.iterate_succ_apply', ih]
    have hstep : nextState ⟨l, (c + k) % l.length⟩ =
        ⟨l, ((c + k) % l.length + 1) % l.length⟩ := by
      unfold nextState
      rw [next_item_eq ⟨l, (c + k) % l.length⟩ true hne]
    rw [hstep, Nat.mod_add_mod]
    have : c + k + 1 = c + (k + 1) := by omega
    rw [this]

/-! ### Lemmas: the durable record round trip -/

theorem expectLit_append (t rest : Chars) : expectLit t (t ++ rest) = some rest := by
  unfold expectLit
  have h : t.isPrefixOf (t ++ rest) = true := by
    rw [List.isPrefixOf_iff_prefix]
    exact List.prefix_append t rest
  simp [h]

theorem hexVal_hexDigitChar (d : Nat) (h : d < 16) :
    hexVal (hexDigitChar d) = some d := by
  interval_cases d <;> decide

theorem digitChar_toNat (n : Nat) (h : n < 10) : (digitChar n).toNat = 48 + n := by
  interval_cases n <;> decide

theorem isDigitA_digitChar (n : Nat) (h : n < 10) : isDigitA (digitChar n) = true := by
  interval_cases n <;> decide

theorem psb_quote (rest : Chars) : parseStringBody ('"' :: rest) = some ([], rest) := by
  rw [parseStringBody.eq_def]; simp

theorem psb_escape (e c2 : Char) (he : unescChar e = some c2) (hu : e ≠ 'u')
    (rest : Chars) :
    parseStringBody ('\\' :: e :: rest) =
      (parseStringBody rest).map (fun p => (c2 :: p.1, p.2)) := by
  rw [parseStringBody.eq_def]; simp [hu, he]

theorem psb_unicode (a b c3 d : Char) (va vb vc vd : Nat) (ha : hexVal a = some va)
    (hb : hexVal b = some vb) (hc : hexVal c3 = some vc) (hd : hexVal d = some vd)
    (rest : Chars) :
    parseStringBody ('\\' :: 'u' :: a :: b :: c3 :: d :: rest) =
      (parseStringBody rest).map
        (fun p => (Char.ofNat (((va * 16 + vb) * 16 + vc) * 16 + vd) :: p.1, p.2)) := by
  rw [parseStringBody.eq_def]; simp [ha, hb, hc, hd]

theorem psb_other (c : Char) (h1 : c ≠ '"') (h2 : c ≠ '\\') (rest : Chars) :
    parseStringBody (c :: rest) =
      (parseStringBody rest).map (fun p => (c :: p.1, p.2)) := by
  rw [parseStringBody.eq_def]; simp [h1, h2]

theorem parseStringBody_append (s rest : Chars) :
    parseStringBody (s.flatMap escChar ++ ('"' :: rest)) = some (s, rest) := by
  induction s with
  | nil => simp [psb_quote]
  | cons c cs ih =>
    rw [List.flatMap_cons, List.append_assoc]
    by_cases h1 : c = '"'
    · subst h1
      rw [show escChar '"' = ['\\', '"'] from rfl]
      simp [psb_escape '"' '"' rfl (by decide), ih]
    · by_cases h2 : c = '\\'
      · subst h2
        rw [show escChar '\\' = ['\\', '\\'] from rfl]
        simp [psb_escape '\\' '\\' rfl (by decide), ih]
      · by_cases h3 : c = '\n'
        · subst h3
          rw [show escChar '\n' = ['\\', 'n'] from rfl]
          simp [psb_escape 'n' '\n' rfl (by decide), ih]
        · by_cases h4 : c = '\t'
          · subst h4
            rw [show escChar '\t' = ['\\', 't'] from rfl]
            simp [psb_escape 't' '\t' rfl (by decide), ih]
          · by_cases h5 : c = '\r'
            · subst h5
              rw [show escChar '\r' = ['\\', 'r'] from rfl]
              simp [psb_escape 'r' '\r' rfl (by decide), ih]
            · by_cases h6 : c = '\x08'
              · subst h6
                rw [show escChar '\x08' = ['\\', 'b'] from rfl]
                simp [psb_escape 'b' '\x08' rfl (by decide), ih]
              · by_cases h7 : c = '\x0c'
                · subst h7
                  rw [show escChar '\x0c' = ['\\', 'f'] from rfl]
                  simp [psb_escape 'f' '\x0c' rfl (by decide), ih]
                · by_cases h8 : c.toNat < 32
                  · have he : escChar c = ['\\', 'u', '0', '0',
                        hexDigitChar (c.toNat / 16), hexDigitChar (c.toNat % 16)] := by
                      unfold escChar
                      simp [h1, h2, h3, h4, h5, h6, h7, h8]
                    rw [he]
                    have hhi : c.toNat / 16 < 16 := by omega
                    have hlo : c.toNat % 16 < 16 := by omega
                    simp only [List.cons_append, List.nil_append]
                    rw [psb_unicode '0' '0' (hexDigitChar (c.toNat / 16))
                      (hexDigitChar (c.toNat % 16)) 0 0 (c.toNat / 16) (c.toNat % 16)
                      (by decide) (by decide)
                      (hexVal_hexDigitChar _ hhi) (hexVal_hexDigitChar _ hlo)]
                    have hv : ((0 * 16 + 0) * 16 + c.toNat / 16) * 16 + c.toNat % 16
                        = c.toNat := by omega
                    rw [hv, Char.ofNat_toNat, ih]
                    rfl
                  · have he : escChar c = [c] := by
                      unfold escChar
                      simp [h1, h2, h3, h4, h5, h6, h7, h8]
                    rw [he]
                    simp [psb_other c h1 h2, ih]

theorem parseStr_renderString (s rest : Chars) :
    parseStr (renderString s ++ rest) = some (s, rest) := by
  have h : renderString s ++ rest = '"' :: (s.flatMap escChar ++ ('"' :: rest)) := by
    simp [renderString]
  rw [h]
  simp [parseStr, parseStringBody_append]

theorem natDigitsAux_ne_nil (fuel n : Nat) : natDigitsAux fuel n ≠ [] := by
  cases fuel with
  | zero => simp [natDigitsAux]
  | succ f => unfold natDigitsAux; split <;> simp

theorem natDigitsAux_digits (fuel : Nat) :
    ∀ n ch, ch ∈ natDigitsAux fuel n → isDigitA ch = true := by
  induction fuel with
  | zero =>
    intro n ch hch
    simp [natDigitsAux] at hch
    subst hch
    exact isDigitA_digitChar _ (Nat.mod_lt _ (by omega))
  | succ f ih =>
    intro n ch hch
    unfold natDigitsAux at hch
    split at hch
    · simp at hch; subst hch; exact isDigitA_digitChar _ (by omega)
    · rcases List.mem_append.mp hch with h | h
      · exact ih _ _ h
      · simp at h; subst h; exact isDigitA_digitChar _ (Nat.mod_lt _ (by omega))

theorem natDigitsAux_foldl (fuel : Nat) :
    ∀ n acc, n ≤ fuel →
      (natDigitsAux fuel n).foldl (fun a c => 10 * a + (c.toNat - 48)) acc
        = acc * 10 ^ (natDigitsAux fuel n).length + n := by
  induction fuel with
  | zero =>
    intro n acc h
    have hn : n = 0 := by omega
    subst hn
    simp [natDigitsAux, digitChar_toNat 0 (by omega)]
    omega
  | succ f ih =>
    intro n acc h
    unfold natDigitsAux
    split
    · next hlt =>
      simp [digitChar_toNat n hlt]
      omega
    · next hge =>
      rw [List.foldl_append]
      have hq : n / 10 ≤ f := by omega
      rw [ih (n / 10) acc hq]
      have hmod := Nat.div_add_mod n 10
      simp [digitChar_toNat (n % 10) (Nat.mod_lt _ (by omega)), List.length_append,
        pow_succ]
      rw [show acc * (10 ^ (natDigitsAux f (n / 10)).length * 10)
          = acc * 10 ^ (natDigitsAux f (n / 10)).length * 10 by ring]
      generalize acc * 10 ^ (natDigitsAux f (n / 10)).length = A
      omega

theorem takeWhile_dropWhile_append {α : Type} {p : α → Bool} (l l' : List α)
    (hl : ∀ x ∈ l, p x = true) (hl' : ∀ c, l'.head? = some c → p c = false) :
    (l ++ l').takeWhile p = l ∧ (l ++ l').dropWhile p = l' := by
  induction l with
  | nil =>
    simp only [List.nil_append]
    cases l' with
    | nil => simp
    | cons c t =>
      have := hl' c rfl
      simp [List.takeWhile_cons, List.dropWhile_cons, this]
  | cons a t ih =>
    have ha : p a = true := hl a (by simp)
    have iht := ih (fun x hx => hl x (by simp [hx]))
    simp [List.takeWhile_cons, List.dropWhile_cons, ha, iht.1, iht.2]

theorem parseNat_append (n : Nat) (tail : Chars)
    (htail : ∀ c, tail.head? = some c → isDigitA c = false) :
    parseNat (renderNat n ++ tail) = some (n, tail) := by
  unfold parseNat renderNat
  have hsplit := takeWhile_dropWhile_append (natDigitsAux n n) tail
    (fun x hx => natDigitsAux_digits n n x hx) htail
  rw [hsplit.1, hsplit.2]
  have hne : (natDigitsAux n n).isEmpty = false := by
    rcases hl : natDigitsAux n n with _ | ⟨a, l⟩
    · exact absurd hl (natDigitsAux_ne_nil n n)
    · rfl
  have hfold := natDigitsAux_foldl n n 0 (Nat.le_refl n)
  simp [hne, hfold]

theorem parseNat_append_comma (n : Nat) (tail : Chars) (h : tail.head? = some ',') :
    parseNat (renderNat n ++ tail) = some (n, tail) := by
  refine parseNat_append n tail ?_
  intro c hc
  rw [h] at hc
  injection hc with h'
  rw [← h']
  rfl

theorem parseItem_append (it : TodoItem) (rest : Chars) :
    parseItem (renderItem it ++ rest) = some (it, rest) := by
  unfold parseItem parseItemA parseItemB parseItemC
  simp only [renderItem, List.append_assoc]
  rw [expectLit_append]
  simp only [Option.some_bind]
  rw [parseStr_renderString]
  simp only [Option.some_bind]
  rw [expectLit_append]
  simp only [Option.some_bind]
  rw [parseNat_append_comma _ _ (by rfl)]
  simp only [Option.some_bind]
  rw [expectLit_append]
  simp only [Option.some_bind]
  rw [parseNat_append_comma _ _ (by rfl)]
  simp only [Option.some_bind]
  rw [expectLit_append]
  simp only [Option.some_bind]
  rw [parseNat_append_comma _ _ (by rfl)]
  simp only [Option.some_bind]
  rw [expectLit_append]
  simp only [Option.some_bind]
  rw [parseNat_append_comma _ _ (by rfl)]
  simp only [Option.some_bind]
  rw [expectLit_append]
  simp only [Option.some_bind]
  rw [parseStr_renderString]
  simp only [Option.some_bind]
  rw [expectLit_append]
  simp only [Option.some_bind]
  rw [parseStr_renderString]
  simp only [Option.some_bind]
  rw [expectLit_append]
  simp only [Option.some_bind]

theorem renderItem_head (it : TodoItem) : (renderItem it).head? = some '{' := rfl

theorem renderItem_length_pos (it : TodoItem) : 0 < (renderItem it).length := by
  rcases hl : renderItem it with _ | ⟨a, l⟩
  · have := renderItem_head it
    rw [hl] at this
    simp at this
  · simp

theorem length_le_renderItemsTail (items : List TodoItem) :
    items.length ≤ (renderItemsTail items).length := by
  induction items with
  | nil => simp [renderItemsTail]
  | cons it more ih =>
    have := renderItem_length_pos it
    simp [renderItemsTail, List.length_append]
    omega

theorem length_le_renderItems (items : List TodoItem) :
    items.length ≤ (renderItems items).length := by
  cases items with
  | nil => simp [renderItems]
  | cons it more =>
    have h1 := renderItem_length_pos it
    have h2 := length_le_renderItemsTail more
    simp [renderItems, List.length_append]
    omega

theorem parseItemsTail_append (more : List TodoItem) :
    ∀ (fuel : Nat) (rest : Chars), more.length ≤ fuel →
      parseItemsTail fuel (renderItemsTail more ++ (']' :: rest)) = some (more, rest) := by
  induction more with
  | nil =>
    intro fuel rest h
    cases fuel with
    | zero => simp [parseItemsTail, renderItemsTail]
    | succ f => simp [parseItemsTail, renderItemsTail]
  | cons it more ih =>
    intro fuel rest h
    cases fuel with
    | zero => simp at h
    | succ f =>
      have hshape : renderItemsTail (it :: more) ++ (']' :: rest)
          = ',' :: ' ' :: (renderItem it ++ (renderItemsTail more ++ (']' :: rest))) := by
        rw [renderItemsTail, show (", ".toList : Chars) = [',', ' '] from rfl]
        simp [List.append_assoc]
      rw [hshape]
      rw [parseItemsTail]
      rw [if_neg (by simp)]
      rw [if_pos (by simp)]
      rw [show ((',' :: ' ' :: (renderItem it
            ++ (renderItemsTail more ++ (']' :: rest)))).tail.tail)
          = renderItem it ++ (renderItemsTail more ++ (']' :: rest)) from rfl]
      rw [parseItem_append]
      simp only [Option.some_bind]
      rw [ih f rest (by simpa using h)]
      rfl

theorem parseItems_append (items : List TodoItem) (fuel : Nat) (rest : Chars)
    (h : items.length ≤ fuel + 1) :
    parseItems fuel (renderItems items ++ (']' :: rest)) = some (items, rest) := by
  cases items with
  | nil => simp [parseItems, renderItems]
  | cons it more =>
    have hhead : (renderItems (it :: more) ++ (']' :: rest)).head? = some '{' := by
      rw [renderItems, List.append_assoc]
      rcases hl : renderItem it with _ | ⟨a, l⟩
      · have := renderItem_head it
        rw [hl] at this
        simp at this
      · have := renderItem_head it
        rw [hl] at this
        simp at this
        simp [this]
    unfold parseItems
    rw [if_neg (by rw [hhead]; decide)]
    rw [show renderItems (it :: more) ++ (']' :: rest)
        = renderItem it ++ (renderItemsTail more ++ (']' :: rest)) by
      rw [renderItems]; simp [List.append_assoc]]
    rw [parseItem_append]
    simp only [Option.some_bind]
    rw [parseItemsTail_append more fuel rest (by simp at h; omega)]
    rfl

theorem parseRecord_render (items : List TodoItem) (cursor : Nat) :
    parseRecord (renderRecord items cursor) = some (cursor, items) := by
  unfold parseRecord renderRecord
  simp only [List.append_assoc]
  rw [expectLit_append]
  simp only [Option.some_bind]
  rw [parseNat_append_comma _ _ (by rfl)]
  simp only [Option.some_bind]
  rw [expectLit_append]
  simp only [Option.some_bind]
  rw [show ("]\x7d".toList : Chars) = ']' :: ['}'] from rfl]
  rw [parseItems_append items _ ['}'] (by
    have := length_le_renderItems items
    simp [List.length_append]
    omega)]
  simp only [Option.some_bind]
  rw [show expectLit ['}'] ['}'] = some [] from rfl]
  simp

theorem load_save (st : SessionState) :
    load_todo_list (some (save_todo_list st)) = .ok st := by
  cases st with
  | mk items cursor =>
    simp [load_todo_list, save_todo_list, parseRecord_render]

/-! ### Lemmas: ordering of the built worklist -/

theorem charsLe_total : ∀ a b : Chars, charsLe a b = true ∨ charsLe b a = true := by
  intro a
  induction a with
  | nil => intro b; left; rfl
  | cons x xs ih =>
    intro b
    cases b with
    | nil => right; rfl
    | cons y ys =>
      by_cases h1 : x.toNat < y.toNat
      · left; simp [charsLe, h1]
      · by_cases h2 : y.toNat < x.toNat
        · right; simp [charsLe, h2]
        · rcases ih ys with h | h
          · left; simp [charsLe, h1, h2, h]
          · right; simp [charsLe, h1, h2, h]

theorem charsLe_trans :
    ∀ a b c : Chars, charsLe a b = true → charsLe b c = true → charsLe a c = true := by
  intro a
  induction a with
  | nil => intro b c _ _; rfl
  | cons x xs ih =>
    intro b c hab hbc
    cases b with
    | nil => simp [charsLe] at hab
    | cons y ys =>
      cases c with
      | nil => simp [charsLe] at hbc
      | cons z zs =>
        simp only [charsLe] at hab hbc ⊢
        by_cases hxy : x.toNat < y.toNat
        · by_cases hyz : y.toNat < z.toNat
          · simp [show x.toNat < z.toNat by omega]
          · by_cases hzy : z.toNat < y.toNat
            · rw [if_neg hyz, if_pos hzy] at hbc; simp at hbc
            · simp [show x.toNat < z.toNat by omega]
        · by_cases hyx : y.toNat < x.toNat
          · rw [if_neg hxy, if_pos hyx] at hab; simp at hab
          · by_cases hyz : y.toNat < z.toNat
            · simp [show x.toNat < z.toNat by omega]
            · by_cases hzy : z.toNat < y.toNat
              · rw [if_neg hyz, if_pos hzy] at hbc; simp at hbc
              · rw [if_neg hxy, if_neg hyx] at hab
                rw [if_neg hyz, if_neg hzy] at hbc
                rw [if_neg (show ¬x.toNat < z.toNat by omega),
                  if_neg (show ¬z.toNat < x.toNat by omega)]
                exact ih ys zs hab hbc

instance : IsTotal (Chars × List Finding) resLe :=
  ⟨fun a b => charsLe_total a.1 b.1⟩

instance : IsTrans (Chars × List Finding) resLe :=
  ⟨fun a b c => charsLe_trans a.1 b.1 c.1⟩

theorem mem_processLine_line_num (lines : List Chars) (i : Nat) (f : Finding)
    (hf : f ∈ processLine lines i) : f.line_num = i + 1 := by
  unfold processLine at hf
  dsimp only at hf
  split at hf
  · simp at hf
  · rcases List.mem_append.mp hf with h | h
    · rcases List.mem_append.mp h with h' | h'
      · unfold varFindings at h'
        rcases List.mem_filterMap.mp h' with ⟨m, hm, heq⟩
        dsimp only at heq
        split at heq
        · simp at heq
        · split at heq
          · simp at heq
          · injection heq with he
            rw [← he]
      · unfold thisFindings at h'
        rcases List.mem_map.mp h' with ⟨m, hm, heq⟩
        rw [← heq]
    · unfold methodFindings at h
      rcases List.mem_filterMap.mp h with ⟨m, hm, heq⟩
      dsimp only at heq
      split at heq
      · injection heq with he
        rw [← he]
      · simp at heq

theorem process_file_lineNum_pairwise (lines : List Chars) :
    (process_file lines).Pairwise (fun a b => a.line_num ≤ b.line_num) := by
  unfold process_file
  rw [List.flatMap_def, List.pairwise_flatten]
  constructor
  · intro l' hl'
    rcases List.mem_map.mp hl' with ⟨i, hi, rfl⟩
    apply List.pairwise_of_forall_mem_list
    intro x hx y hy
    rw [mem_processLine_line_num lines i x hx, mem_processLine_line_num lines i y hy]
  · rw [List.pairwise_map]
    apply (List.pairwise_lt_range lines.length).imp
    intro i j hij x hx y hy
    rw [mem_processLine_line_num lines i x hx, mem_processLine_line_num lines j y hy]
    omega

theorem build_todo_list_sorted (results : List (Chars × List Finding))
    (hnd : results.Pairwise (fun a b => a.1 ≠ b.1))
    (hres : ∀ pr ∈ results, ∃ lines, pr.2 = process_file lines) :
    (build_todo_list results).Pairwise entryLe := by
  unfold build_todo_list
  rw [List.flatMap_def, List.pairwise_flatten]
  have hperm : List.Perm (List.insertionSort resLe results) results :=
    List.perm_insertionSort resLe results
  have hsort : (List.insertionSort resLe results).Pairwise resLe :=
    List.sorted_insertionSort resLe results
  have hnd' : (List.insertionSort resLe results).Pairwise (fun a b => a.1 ≠ b.1) :=
    (hperm.pairwise_iff (fun h => Ne.symm h)).mpr hnd
  constructor
  · intro l' hl'
    rcases List.mem_map.mp hl' with ⟨pr, hpr, rfl⟩
    split
    · simp
    · rw [List.pairwise_map]
      rcases hres pr (hperm.subset hpr) with ⟨lines, hl⟩
      rw [hl]
      apply (process_file_lineNum_pairwise lines).imp
      intro f g hle
      right
      exact ⟨rfl, hle⟩
  · rw [List.pairwise_map]
    apply (hsort.and hnd').imp
    intro pr1 pr2 hp x hx y hy
    have hx1 : x.file_path = pr1.1 := by
      split at hx
      · simp at hx
      · rcases List.mem_map.mp hx with ⟨f, _, rfl⟩
        rfl
    have hy1 : y.file_path = pr2.1 := by
      split at hy
      · simp at hy
      · rcases List.mem_map.mp hy with ⟨f, _, rfl⟩
        rfl
    left
    rw [hx1, hy1]
    exact ⟨hp.1, hp.2⟩

/-! ### Claims -/

/-- **C1, counterexample.**  The claim says the built worklist is ordered by
path, then line, then column.  Scanning the single line
`x = this->zAb; Foo barBaz;` puts the `VAR_PATTERN` finding (column 19)
before the `THIS_PATTERN` finding (column 10) of the same file and line,
because per-line findings are appended in pattern order, not column
order. -/
theorem c1_counterexample :
    (build_todo_list [("a.cpp".toList, process_file [demoLineCols])]).map
        (fun e => (e.file_path, e.line_num, e.column))
      = [("a.cpp".toList, 1, 19), ("a.cpp".toList, 1, 10)] ∧ ¬(19 : Nat) ≤ 10 :=
  ⟨by decide, by decide⟩

/-- **C1, amended.**  For a fresh scan whose files have pairwise distinct
paths, building the session flattens the per-file results into one
worklist ordered by file path and, within one file, by non-decreasing line
number (not by column); the cursor keeps its program-start value 0, and
the durable record of the new list is written immediately. -/
theorem c1_build_ordered (files : List (Chars × List Chars))
    (hnd : files.Pairwise (fun a b => a.1 ≠ b.1)) :
    (buildOp initialSession (find_camel_case_variables files)).1.current_index = 0 ∧
    (buildOp initialSession (find_camel_case_variables files)).2
      = renderRecord
          (buildOp initialSession (find_camel_case_variables files)).1.todo_list 0 ∧
    (buildOp initialSession
      (find_camel_case_variables files)).1.todo_list.Pairwise entryLe := by
  refine ⟨rfl, rfl, ?_⟩
  apply build_todo_list_sorted
  · unfold find_camel_case_variables
    apply List.Pairwise.sublist (List.filter_sublist _)
    rw [List.pairwise_map]
    exact hnd
  · intro pr hpr
    unfold find_camel_case_variables at hpr
    have hmem := List.mem_of_mem_filter hpr
    rcases List.mem_map.mp hmem with ⟨f, hf, rfl⟩
    exact ⟨f.2, rfl⟩

/-- **C1, witness.** -/
theorem c1_build_ordered_witness :
    (buildOp initialSession (find_camel_case_variables demoFiles)).1.current_index = 0 ∧
    (buildOp initialSession (find_camel_case_variables demoFiles)).2
      = renderRecord
          (buildOp initialSession (find_camel_case_variables demoFiles)).1.todo_list 0 ∧
    (buildOp initialSession
      (find_camel_case_variables demoFiles)).1.todo_list.Pairwise entryLe :=
  c1_build_ordered demoFiles (by decide)

/-- **C2, counterexample.**  The claim says deleting at an index at or
before the cursor decrements the cursor.  Deleting index 1 with the cursor
at 1 (of three entries) leaves the cursor at 1 — the code only decrements
when the removed index is strictly below the cursor. -/
theorem c2_counterexample :
    (1 : Nat) ≤ 1 ∧ (delete_item ⟨demoList3, 1⟩ 1).1.current_index ≠ 1 - 1 :=
  ⟨by decide, by decide⟩

/-- **C2, amended.**  `delete(index)` removes the entry at `index` (shifting
later entries down by one); an index strictly below the cursor decrements
the cursor; an index at or after the cursor leaves it unchanged except that
it is clamped to the new last index when it would fall off the end; if the
sequence empties, the session is the empty state with cursor 0; the cursor
invariant holds afterwards. -/
theorem c2_delete (st : SessionState) (index : Nat)
    (h : index < st.todo_list.length) (hc : st.current_index < st.todo_list.length) :
    (delete_item st index).1.todo_list = st.todo_list.eraseIdx index ∧
    (delete_item st index).1.todo_list.length = st.todo_list.length - 1 ∧
    (index < st.current_index →
      (delete_item st index).1.current_index = st.current_index - 1) ∧
    (st.current_index ≤ index →
      (delete_item st index).1.current_index
        = min st.current_index ((st.todo_list.eraseIdx index).length - 1)) ∧
    (st.todo_list.eraseIdx index = [] →
      (delete_item st index).1 = ⟨[], 0⟩) ∧
    (st.todo_list.eraseIdx index ≠ [] →
      (delete_item st index).1.current_index
        < (st.todo_list.eraseIdx index).length) := by
  rw [delete_item_eq st index h]
  have hlen : (st.todo_list.eraseIdx index).length = st.todo_list.length - 1 :=
    List.length_eraseIdx_of_lt h
  refine ⟨rfl, hlen, ?_, ?_, ?_, ?_⟩
  · intro hlt
    simp only [deleteCursor]
    rw [hlen]
    split_ifs <;> omega
  · intro hle
    simp only [deleteCursor]
    rw [hlen]
    split_ifs <;> omega
  · intro hnil
    rw [hnil]
    simp [deleteCursor]
  · intro hne
    have hpos : 0 < (st.todo_list.eraseIdx index).length :=
      List.length_pos.mpr hne
    exact deleteCursor_lt _ _ _ hpos

/-- **C2, witness.** -/
theorem c2_delete_witness :
    ((0 : Nat) < demoList3.length ∧ (2 : Nat) < demoList3.length) ∧
    ((delete_item ⟨demoList3, 2⟩ 0).1.todo_list = demoList3.eraseIdx 0 ∧
      (delete_item ⟨demoList3, 2⟩ 0).1.todo_list.length = demoList3.length - 1 ∧
      (0 < 2 → (delete_item ⟨demoList3, 2⟩ 0).1.current_index = 2 - 1) ∧
      ((2 : Nat) ≤ 0 →
        (delete_item ⟨demoList3, 2⟩ 0).1.current_index
          = min 2 ((demoList3.eraseIdx 0).length - 1)) ∧
      (demoList3.eraseIdx 0 = [] → (delete_item ⟨demoList3, 2⟩ 0).1 = ⟨[], 0⟩) ∧
      (demoList3.eraseIdx 0 ≠ [] →
        (delete_item ⟨demoList3, 2⟩ 0).1.current_index
          < (demoList3.eraseIdx 0).length)) :=
  ⟨⟨by decide, by decide⟩, c2_delete ⟨demoList3, 2⟩ 0 (by decide) (by decide)⟩

/-- **C3, counterexample.**  The claim says `save` is atomic via a temporary
file and rename.  The in-place write passes through the truncated state
`some ""`, which is neither the old durable state (`none` here) nor the
complete new record — a crash there leaves a partial record. -/
theorem c3_counterexample :
    some ([] : Chars) ∈ saveTrace none ⟨[], 0⟩ ∧
    some ([] : Chars) ≠ (none : Option Chars) ∧
    some ([] : Chars) ≠ some (save_todo_list ⟨[], 0⟩) :=
  ⟨by decide, by decide, by decide⟩

/-- **C3, amended.**  `save` totally overwrites the durable record in place
(truncate, then write): the write sequence starts from the previous state,
passes through every prefix of the new record (including the empty
truncation), and ends with the complete record; it is not atomic, but a
record left at the truncated state fails to parse on a later `load` and is
reported as corrupt rather than crashing. -/
theorem c3_save_in_place (old : Option Chars) (st : SessionState) :
    (saveTrace old st).getLast? = some (some (save_todo_list st)) ∧
    (saveTrace old st).head? = some old ∧
    (∀ k : Nat, some ((save_todo_list st).take k) ∈ saveTrace old st) ∧
    load_todo_list (some []) = .error .corruptRecord := by
  refine ⟨?_, ?_, ?_, by decide⟩
  · unfold saveTrace
    exact List.getLast?_concat _
  · unfold saveTrace
    simp
  · intro k
    unfold saveTrace
    by_cases hk : k < (save_todo_list st).length
    · refine List.mem_append.mpr (Or.inl ?_)
      refine List.mem_cons.mpr (Or.inr ?_)
      exact List.mem_map.mpr ⟨k, List.mem_range.mpr hk, rfl⟩
    · refine List.mem_append.mpr (Or.inr ?_)
      rw [List.take_of_length_le (by omega)]
      simp

/-- **C4.**  `load` is total and never crashes: a missing record is
`NotFound`, an unparsable record (for example one truncated mid-write) is
`CorruptRecord`, every durable state produces exactly one of ok / NotFound
/ CorruptRecord, and the interactive caller treats any failure as "no
session" by leaving the live session untouched. -/
theorem c4_load_total :
    load_todo_list none = .error .notFound ∧
    (∀ s, parseRecord s = none → load_todo_list (some s) = .error .corruptRecord) ∧
    (∀ store, (∃ st, load_todo_list store = .ok st) ∨
      load_todo_list store = .error .notFound ∨
      load_todo_list store = .error .corruptRecord) ∧
    (∀ st store e, load_todo_list store = .error e → (reload_op st store).1 = st) := by
  refine ⟨rfl, ?_, ?_, ?_⟩
  · intro s hs
    simp [load_todo_list, hs]
  · intro store
    cases store with
    | none => right; left; rfl
    | some s =>
      cases hp : parseRecord s with
      | none => right; right; simp [load_todo_list, hp]
      | some ci => exact Or.inl ⟨⟨ci.2, ci.1⟩, by simp [load_todo_list, hp]⟩
  · intro st store e he
    simp [reload_op, he]

/-- **C4, witness**: a record truncated mid-write loads as `CorruptRecord`,
a missing record as `NotFound`. -/
theorem c4_load_total_witness :
    parseRecord truncatedRecord = none ∧
    load_todo_list (some truncatedRecord) = .error .corruptRecord ∧
    load_todo_list none = .error .notFound :=
  ⟨by decide, c4_load_total.2.1 truncatedRecord (by decide), c4_load_total.1⟩

/-- **C5.**  `save` followed by `load` reproduces the identical session:
the same ordered item sequence and the same cursor. -/
theorem c5_save_load_roundtrip (st : SessionState) :
    load_todo_list (some (save_todo_list st)) = .ok st :=
  load_save st

/-- **C6.**  On an empty session `next` is a no-op that reports empty; on a
non-empty session it sets the cursor to `(cursor+1) mod length`, so
applying it `length` times returns the cursor to its starting value. -/
theorem c6_next_circular :
    (∀ c ok, next_item ⟨[], c⟩ ok = (⟨[], c⟩, [.reportEmpty])) ∧
    (∀ st ok, st.todo_list ≠ [] →
      (next_item st ok).1
        = ⟨st.todo_list, (st.current_index + 1) % st.todo_list.length⟩) ∧
    (∀ st : SessionState, st.todo_list ≠ [] →
      st.current_index < st.todo_list.length →
      nextState^[st.todo_list.length] st = st) := by
  refine ⟨?_, ?_, ?_⟩
  · intro c ok
    simp [next_item]
  · intro st ok h
    rw [next_item_eq st ok h]
  · intro st h hc
    cases st with
    | mk l c =>
      rw [nextState_iterate l c l.length h hc]
      simp only [Nat.add_mod_right]
      rw [Nat.mod_eq_of_lt hc]

/-- **C6, witness.** -/
theorem c6_next_circular_witness :
    next_item ⟨[], 5⟩ true = (⟨[], 5⟩, [.reportEmpty]) ∧
    (next_item ⟨[demoItem], 0⟩ true).1 = ⟨[demoItem], (0 + 1) % 1⟩ ∧
    nextState^[1] ⟨[demoItem], 0⟩ = ⟨[demoItem], 0⟩ :=
  ⟨c6_next_circular.1 5 true,
   c6_next_circular.2.1 ⟨[demoItem], 0⟩ true (by decide),
   c6_next_circular.2.2 ⟨[demoItem], 0⟩ (by decide) (by decide)⟩

/-- **C7, counterexample.**  The claim says lines beginning with a comment
or preprocessor marker are skipped entirely.  A `//` comment line is *not*
skipped — only `#`-prefixed lines are — and yields a finding. -/
theorem c7_counterexample :
    ['/', '/'].isPrefixOf (pyStrip demoLineComment) = true ∧
    (process_file [demoLineComment]).map (fun f => (f.line_num, f.var_name))
      = [(1, "fooBar".toList)] :=
  ⟨by decide, by decide⟩

/-- **C7, amended.**  A line whose stripped text begins with `#`, or that
matches the deny-list of control-flow keywords, is skipped entirely: no
finding of the built worklist carries that line's number. -/
theorem c7_skip_lines (lines : List Chars) (i : Nat)
    (h : (['#'].isPrefixOf (pyStrip (lines.getD i []))
      || is_false_positive (lines.getD i [])) = true) :
    (process_file lines).countP (fun f => f.line_num == i + 1) = 0 := by
  rw [List.countP_eq_zero]
  intro f hf
  unfold process_file at hf
  rcases List.mem_flatMap.mp hf with ⟨j, hj, hfj⟩
  have hln := mem_processLine_line_num lines j f hfj
  by_cases hji : j = i
  · subst hji
    unfold processLine at hfj
    dsimp only at hfj
    rw [if_pos h] at hfj
    simp at hfj
  · simp only [beq_iff_eq, hln]
    omega

/-- **C7, witness.** -/
theorem c7_skip_lines_witness :
    ((['#'].isPrefixOf (pyStrip ([demoLineHash].getD 0 []))
      || is_false_positive ([demoLineHash].getD 0 [])) = true) ∧
    (process_file [demoLineHash]).countP (fun f => f.line_num == 0 + 1) = 0 :=
  ⟨by decide, c7_skip_lines [demoLineHash] 0 (by decide)⟩

/-- **C8.**  Every cursor-changing navigation operation (next, previous,
goto) first commits the cursor update and its persistence write and only
then launches the editor: the action sequence is persist-of-the-advanced-
state, display, then the launch; the resulting session state is the same
term whether the launch succeeds or fails, so nothing is rolled back; and
a failed launch only appends a report action (it is not fatal). -/
theorem c8_commit_before_launch :
    (∀ st ok, st.todo_list ≠ [] →
      next_item st ok =
        (⟨st.todo_list, (st.current_index + 1) % st.todo_list.length⟩,
         [.persist (save_todo_list
              ⟨st.todo_list, (st.current_index + 1) % st.todo_list.length⟩), .shown]
           ++ open_in_editor ok)) ∧
    (∀ st ok, st.todo_list ≠ [] →
      prev_item st ok =
        (⟨st.todo_list, prevIndex st.current_index st.todo_list.length⟩,
         [.persist (save_todo_list
              ⟨st.todo_list, prevIndex st.current_index st.todo_list.length⟩), .shown]
           ++ open_in_editor ok)) ∧
    (∀ st i ok, i < st.todo_list.length →
      goto_item st i ok =
        (⟨st.todo_list, i⟩,
         [.persist (save_todo_list ⟨st.todo_list, i⟩), .shown]
           ++ open_in_editor ok)) ∧
    (∀ ok, open_in_editor ok
      = if ok then [.launchEditor] else [.launchEditor, .reportLaunchFailure]) :=
  ⟨next_item_eq, prev_item_eq, goto_item_eq, fun _ => rfl⟩

/-- **C8, witness.** -/
theorem c8_commit_before_launch_witness :
    next_item ⟨[demoItem], 0⟩ false =
      (⟨[demoItem], (0 + 1) % 1⟩,
       [.persist (save_todo_list ⟨[demoItem], (0 + 1) % 1⟩), .shown]
         ++ open_in_editor false) :=
  c8_commit_before_launch.1 ⟨[demoItem], 0⟩ false (by decide)

/-- **C9, counterexample.**  The claim says the windowed method-body pattern
appends one duplicate per surrounding line with the *same* stored line
number.  On a three-line file with exactly one textual occurrence of the
token, the pattern appends three entries — one per surrounding line — whose
stored line numbers are 1, 2 and 3: pairwise distinct, never equal. -/
theorem c9_counterexample :
    ((process_file demoMethodLines).filter
        (fun f => "In ".toList.isPrefixOf f.line_text)).map
        (fun f => (f.line_num, f.var_name))
      = [(1, "fooBar".toList), (2, "fooBar".toList), (3, "fooBar".toList)] ∧
    demoMethodLines.countP (fun l => containsSub "fooBar".toList l) = 1 :=
  ⟨by decide, by decide⟩

/-- **C9, amended.**  For some file contents, a single textual occurrence
matched by the method-body pattern is appended once per surrounding line
whose window scan accepts it, so the worklist holds several near-duplicate
entries with the same token — but their stored line numbers are the
distinct surrounding lines' numbers, one each. -/
theorem c9_window_duplicates :
    ((process_file demoMethodLines).filter
        (fun f => "In ".toList.isPrefixOf f.line_text)).length = 3 ∧
    ((process_file demoMethodLines).filter
        (fun f => "In ".toList.isPrefixOf f.line_text)).all
        (fun f => f.var_name == "fooBar".toList) = true ∧
    (((process_file demoMethodLines).filter
        (fun f => "In ".toList.isPrefixOf f.line_text)).map
        (fun f => f.line_num)).Nodup :=
  ⟨by decide, by decide, by decide⟩

/-- **C10.**  `load` accepts the stored cursor without validating it against
the stored sequence's length, so a loaded non-empty session can have
`cursor ≥ length`; `display_current_item` later resets any out-of-range
cursor to 0 before displaying, restoring the invariant lazily. -/
theorem c10_load_unvalidated :
    (∀ items cursor, load_todo_list (some (renderRecord items cursor))
      = .ok ⟨items, cursor⟩) ∧
    (∀ st : SessionState, st.todo_list ≠ [] →
      st.todo_list.length ≤ st.current_index →
      (display_current_item st).1 = ⟨st.todo_list, 0⟩) ∧
    (∀ st : SessionState, st.todo_list ≠ [] →
      (display_current_item st).1.current_index < st.todo_list.length) := by
  refine ⟨?_, ?_, ?_⟩
  · intro items cursor
    simpa [save_todo_list] using load_save ⟨items, cursor⟩
  · intro st h hge
    have hne : st.todo_list.isEmpty = false := by simp [List.isEmpty_iff, h]
    simp [display_current_item, hne, hge]
  · intro st h
    have hne : st.todo_list.isEmpty = false := by simp [List.isEmpty_iff, h]
    have hpos : 0 < st.todo_list.length := List.length_pos.mpr h
    by_cases hge : st.current_index ≥ st.todo_list.length
    · have hd : (display_current_item st).1 = ⟨st.todo_list, 0⟩ := by
        simp [display_current_item, hne, hge]
      rw [hd]
      exact hpos
    · have hd := display_noop st (by omega)
      rw [hd]
      exact (by omega : st.current_index < st.todo_list.length)

/-- **C10, witness**: a record with one item and stored cursor 5 loads with
cursor 5 ≥ 1, and displaying resets the cursor to 0. -/
theorem c10_load_unvalidated_witness :
    load_todo_list (some (renderRecord [demoItem] 5)) = .ok ⟨[demoItem], 5⟩ ∧
    ([demoItem] : List TodoItem).length ≤ 5 ∧
    (display_current_item ⟨[demoItem], 5⟩).1 = ⟨[demoItem], 0⟩ :=
  ⟨c10_load_unvalidated.1 [demoItem] 5, by decide,
   c10_load_unvalidated.2.1 ⟨[demoItem], 5⟩ (by decide) (by decide)⟩

end FindCamelCase
